import Mathlib

/-!
Verification of the weather-mcp-server tool abstraction, validation contract,
dispatch facade and tool registry.

The embedding models the JavaScript/TypeScript runtime shallowly:
* JS values flowing through tool parameters are `JValue` (numbers are
  restricted to integers, which covers every constant the code compares
  against); JS objects are association lists `Params`.
* Synchronous exceptions and promise rejections are both carried by
  `Except JSError`; a value of type `Promise α` distinguishes a resolved
  promise from a rejected one, so that `Except JSError (Promise α)` models
  "a function that may throw synchronously or return a promise".
* `process.env` string variables are `Option String` (absent = `none`).
-/

/-- A JavaScript value as it appears in tool parameters. -/
inductive JValue where
  | jnull
  | jbool (b : Bool)
  | jnum (n : Int)
  | jstr (s : String)
deriving DecidableEq, Repr

/-- A JS object: association list from property name to value. -/
abbrev Params := List (String × JValue)

/-- Association-list lookup, first binding wins (JS objects have unique keys). -/
def mapLookup {α : Type} : List (String × α) → String → Option α
  | [], _ => none
  | (k, v) :: rest, key => if k = key then some v else mapLookup rest key

/-- Property access `params.k`: `none` models JS `undefined`. -/
def getField (p : Params) (k : String) : Option JValue :=
  mapLookup p k

/-- JS truthiness test on a possibly-undefined value (`!x` in the source). -/
def jsFalsy : Option JValue → Bool
  | none => true
  | some JValue.jnull => true
  | some (JValue.jbool b) => !b
  | some (JValue.jnum n) => n == 0
  | some (JValue.jstr s) => s == ""

/-- JS template-literal rendering of a possibly-undefined value. -/
def jsDisplay : Option JValue → String
  | none => "undefined"
  | some JValue.jnull => "null"
  | some (JValue.jbool true) => "true"
  | some (JValue.jbool false) => "false"
  | some (JValue.jnum n) => toString n
  | some (JValue.jstr s) => s

/-- The two error kinds of the source: `ToolValidationError` (distinguished
by type identity) and every other `Error`. -/
inductive JSError where
  | toolValidationError (message : String)
  | error (message : String)
deriving DecidableEq, Repr

/-- `error.message`. -/
def JSError.message : JSError → String
  | JSError.toolValidationError m => m
  | JSError.error m => m

/-! ### The grid point URL regular expression

`/^https:\/\/api\.weather\.gov\/gridpoints\/[A-Z]{3}\/\d+,\d+$/` compiled to
an explicit character-list matcher. -/

/-- Consume a literal prefix; return the remaining characters on success. -/
def dropLit : List Char → List Char → Option (List Char)
  | [], s => some s
  | _ :: _, [] => none
  | p :: ps, c :: cs => if c = p then dropLit ps cs else none

/-- Split a leading run of decimal digits (`\d*`) from the rest. -/
def splitDigits : List Char → List Char × List Char
  | [] => ([], [])
  | c :: cs =>
    if c.isDigit then
      let p := splitDigits cs
      (c :: p.1, p.2)
    else ([], c :: cs)

/-- `[A-Z]` character class. -/
def isAZupper (c : Char) : Bool :=
  'A'.val ≤ c.val && c.val ≤ 'Z'.val

/-- Match `\d+,\d+$`. -/
def matchCoords (cs : List Char) : Bool :=
  let p := splitDigits cs
  match p.1, p.2 with
  | _ :: _, ',' :: rest =>
    let q := splitDigits rest
    !q.1.isEmpty && q.2.isEmpty
  | _, _ => false

/-- The full anchored regex test used by both weather tools. -/
def gridPointUrlTest (s : String) : Bool :=
  match dropLit "https://api.weather.gov/gridpoints/".data s.data with
  | none => false
  | some rest =>
    match rest with
    | a :: b :: c :: '/' :: tail =>
      isAZupper a && isAZupper b && isAZupper c && matchCoords tail
    | _ => false

/-! ### Validation messages -/

/-- Message of the `ToolValidationError` for a bad grid point URL. -/
def invalidGridPointUrlMsg (v : Option JValue) : String :=
  "Invalid grid point URL \"" ++ jsDisplay v ++ "\". Ask user for a valid grid point URL."

/-- Message of the `ToolValidationError` for bad forecast hours. -/
def invalidForecastHoursMsg (v : Option JValue) : String :=
  "Invalid forecast hours value \"" ++ jsDisplay v ++
    "\". Valid range is from 1 to 156 hours. Ask user for a valid forecast hours value."

/-! ### Input schemas -/

/-- One property descriptor of a JSON-schema `properties` entry. -/
structure PropertySchema where
  type : String
  default? : Option Int
  minimum? : Option Int
  maximum? : Option Int
deriving DecidableEq, Repr

/-- The schema shape returned by `getInputSchema`. -/
structure InputSchema where
  type : String
  properties : List (String × PropertySchema)
  required : List String
deriving DecidableEq, Repr

/-- `CurrentWeather.getInputSchema`. -/
def CurrentWeather.getInputSchema : InputSchema :=
  ⟨"object", [("gridPointUrl", ⟨"string", none, none, none⟩)], ["gridPointUrl"]⟩

/-- `HourlyForecastWeather.getInputSchema`. -/
def HourlyForecastWeather.getInputSchema : InputSchema :=
  ⟨"object",
   [("gridPointUrl", ⟨"string", none, none, none⟩),
    ("forecastHours", ⟨"number", some 24, some 1, some 156⟩)],
   ["gridPointUrl"]⟩

/-! ### Validators -/

/-- `CurrentWeather.validateWithDefaults`: requires a string `gridPointUrl`
matching the grid point regex; returns `{ gridPointUrl }`. -/
def CurrentWeather.validateWithDefaults (params : Params) : Except JSError Params :=
  match getField params "gridPointUrl" with
  | some (JValue.jstr s) =>
    if gridPointUrlTest s then
      Except.ok [("gridPointUrl", JValue.jstr s)]
    else
      Except.error (JSError.toolValidationError
        (invalidGridPointUrlMsg (getField params "gridPointUrl")))
  | _ => Except.error (JSError.toolValidationError
      (invalidGridPointUrlMsg (getField params "gridPointUrl")))

/-- `HourlyForecastWeather.validateWithDefaults`: validates `gridPointUrl`
like the current-weather tool; a falsy `forecastHours` defaults to 24,
a truthy one must be a number in `[1, 156]`. -/
def HourlyForecastWeather.validateWithDefaults (params : Params) : Except JSError Params :=
  match getField params "gridPointUrl" with
  | some (JValue.jstr s) =>
    if gridPointUrlTest s then
      if jsFalsy (getField params "forecastHours") then
        Except.ok [("gridPointUrl", JValue.jstr s), ("forecastHours", JValue.jnum 24)]
      else
        match getField params "forecastHours" with
        | some (JValue.jnum n) =>
          if n < 1 ∨ n > 156 then
            Except.error (JSError.toolValidationError
              (invalidForecastHoursMsg (getField params "forecastHours")))
          else
            Except.ok [("gridPointUrl", JValue.jstr s), ("forecastHours", JValue.jnum n)]
        | _ => Except.error (JSError.toolValidationError
            (invalidForecastHoursMsg (getField params "forecastHours")))
    else
      Except.error (JSError.toolValidationError
        (invalidGridPointUrlMsg (getField params "gridPointUrl")))
  | _ => Except.error (JSError.toolValidationError
      (invalidGridPointUrlMsg (getField params "gridPointUrl")))

/-- Keys of a normalized parameter object, in order. -/
def keysOf (p : Params) : List String := p.map Prod.fst

/-- Declared property names of a schema, in order. -/
def propNames (s : InputSchema) : List String := s.properties.map Prod.fst

/-! ### The base template: `AbstractTool.handleRequest`

`handleRequest` wraps `this.processToolWorkflow(this.validateWithDefaults(request.params))`
in a try/catch.  The catch block sees exactly the errors thrown synchronously
inside the try block: a throw from `validateWithDefaults`, or a throw from
`processToolWorkflow` occurring before a promise is returned.  A rejection of
the returned promise is never seen by the catch block.  We therefore model a
workflow as `Params → Except JSError (Promise HandlerResult)`: the outer
`Except.error` is a synchronous throw, the inner `Promise.rejected` an
asynchronous rejection.  Every concrete tool in the repository declares
`processToolWorkflow` as an `async` method, which in JS can never throw
synchronously, so `Tool` carries a workflow of type `Params → Promise HandlerResult`. -/

/-- One content block of a handler result. -/
structure ContentBlock where
  type : String
  text : String
  annotations : Option Params
deriving DecidableEq, Repr

/-- The uniform handler result shape `{ content: [...] }`. -/
structure HandlerResult where
  content : List ContentBlock
deriving DecidableEq, Repr

/-- A settled JS promise: resolved with a value or rejected with an error. -/
inductive Promise (α : Type) where
  | resolved (value : α)
  | rejected (error : JSError)
deriving DecidableEq, Repr

/-- A request as passed to `handleRequest`. -/
structure Request where
  params : Params
deriving DecidableEq, Repr

/-- A concrete tool extending the base template: a synchronous
`validateWithDefaults` override and an `async` `processToolWorkflow` override. -/
structure Tool where
  validateWithDefaults : Params → Except JSError Params
  processToolWorkflow : Params → Promise HandlerResult

/-- The `{content: [{type: "text", text: m}]}` block built by the catch clause. -/
def validationTextResult (m : String) : HandlerResult :=
  ⟨[⟨"text", m, none⟩]⟩

/-- The try/catch pipeline of `AbstractTool.handleRequest`, stated for a
general workflow that may throw synchronously or return a promise. -/
def handleRequestGen (validate : Params → Except JSError Params)
    (workflow : Params → Except JSError (Promise HandlerResult))
    (request : Request) : Except JSError (Promise HandlerResult) :=
  let attempt : Except JSError (Promise HandlerResult) :=
    match validate request.params with
    | Except.ok validated => workflow validated
    | Except.error e => Except.error e
  match attempt with
  | Except.ok p => Except.ok p
  | Except.error (JSError.toolValidationError m) =>
      Except.ok (Promise.resolved (validationTextResult m))
  | Except.error e => Except.error e

/-- `AbstractTool.handleRequest` for a tool whose workflow is `async`. -/
def AbstractTool.handleRequest (t : Tool) (request : Request) :
    Except JSError (Promise HandlerResult) :=
  handleRequestGen t.validateWithDefaults
    (fun p => Except.ok (t.processToolWorkflow p)) request

/-! ### The dispatch facade: `callToolHandler` -/

/-- Registry map passed to the dispatch facade.  A value `none` models a key
bound to a falsy instance (the defensive "not instantiated" case). -/
abbrev Registry := List (String × Option Tool)

/-- `Map.has`. -/
def mapHas (r : Registry) (name : String) : Bool :=
  (mapLookup r name).isSome

/-- `await` on the result of a call that may throw synchronously or return a
promise, inside an `async` function: both failure modes become a rejection. -/
def awaitPromise : Except JSError (Promise HandlerResult) → Except JSError HandlerResult
  | Except.ok (Promise.resolved v) => Except.ok v
  | Except.ok (Promise.rejected e) => Except.error e
  | Except.error e => Except.error e

/-- `callToolHandler` from the server entry point: guards on registry
membership and defined arguments, on a falsy map value, and otherwise awaits
`tool.handleRequest({ params: arguments })`. -/
def callToolHandler (registry : Registry) (name : String)
    (arguments : Option Params) : Except JSError HandlerResult :=
  if mapHas registry name && arguments.isSome then
    match (mapLookup registry name).bind (fun x => x) with
    | none =>
        Except.error (JSError.error ("Tool \"" ++ name ++ "\" not instantiated."))
    | some tool =>
        awaitPromise (AbstractTool.handleRequest tool ⟨arguments.getD []⟩)
  else
    Except.error (JSError.error ("Tool \"" ++ name ++ "\" not found or no arguments provided."))

/-- `sub` occurs as a substring of `msg`. -/
def SubstringOf (sub msg : String) : Prop :=
  ∃ pre post, msg = pre ++ sub ++ post

/-! ### User-Agent header -/

/-- Truthiness of a `process.env` entry (`undefined` or `""` is falsy). -/
def envFalsy : Option String → Bool
  | none => true
  | some s => s == ""

/-- `AbstractTool.getUserAgentHeaderText`: throws when `APP_NAME` or
`APP_EMAIL` is falsy, otherwise composes the identification string. -/
def getUserAgentHeaderText (appName appEmail : Option String) : Except JSError String :=
  if envFalsy appName || envFalsy appEmail then
    Except.error (JSError.error
      "Environment variables APP_NAME and APP_EMAIL must be set to generate User-Agent header.")
  else
    Except.ok ((appName.getD "") ++ " (" ++ (appEmail.getD "") ++ ")")

/-- An outbound HTTP request as issued by a tool workflow: its URL and its
User-Agent header value. -/
structure HttpRequest where
  url : String
  userAgent : String
deriving DecidableEq, Repr

/-- The pre-network phase of `CurrentWeather.getCurrentWeather`: the headers
are a hardcoded literal and the first fetch targets the stations URL; the
environment is never consulted, so building the request cannot fail. -/
def CurrentWeather.firstRequest (appName appEmail : Option String)
    (gridPointUrl : String) : Except JSError HttpRequest :=
  let _ := appName
  let _ := appEmail
  Except.ok ⟨gridPointUrl ++ "/stations?limit=1", "weather-mcp-server (katjes733@gmx.net)"⟩

/-- The pre-network phase of `HourlyForecastWeather.getForecastHourly`: the
headers call `this.getUserAgentHeaderText()` before the fetch, so a falsy
environment variable throws before any network call. -/
def HourlyForecastWeather.firstRequest (appName appEmail : Option String)
    (gridPointUrl : String) : Except JSError HttpRequest :=
  match getUserAgentHeaderText appName appEmail with
  | Except.ok ua => Except.ok ⟨gridPointUrl ++ "/forecast/hourly?units=us", ua⟩
  | Except.error e => Except.error e

/-! ### The tool registry: discovery (`Helper.preloadTools`)

Discovery enumerates the files of the tools directory, dynamically loads each
file whose name ends in `".ts"`, instantiates every exported function value,
and registers each instance exposing a `getName` capability into a JS `Map`
keyed by `instance.getName()`.  We model a loaded module as its list of
exported values. -/

/-- A constructed tool instance as seen by the registry: whether it exposes a
`getName` capability, and the name it reports.  `objId` models JS object
identity, so that two instances reporting the same name stay distinguishable. -/
structure Instance where
  hasGetName : Bool
  name : String
  objId : Nat
deriving DecidableEq, Repr

/-- One exported value of a dynamically loaded module: a zero-argument
constructible function value, or anything else. -/
inductive ExportVal where
  | ctor (inst : Instance)
  | nonCtor
deriving DecidableEq, Repr

/-- A file of the tools directory together with the exports of the module it
loads to. -/
structure FileEntry where
  name : String
  exports : List ExportVal
deriving DecidableEq, Repr

/-- The registry map built by discovery. -/
abbrev ToolMap := List (String × Instance)

/-- `Map.set`: replace an existing binding in place, otherwise append. -/
def mapSet (m : ToolMap) (k : String) (v : Instance) : ToolMap :=
  match m with
  | [] => [(k, v)]
  | (k', v') :: rest => if k' = k then (k, v) :: rest else (k', v') :: mapSet rest k v

/-- Register the exports of one loaded module into the map. -/
def registerExports (m : ToolMap) (es : List ExportVal) : ToolMap :=
  es.foldl
    (fun acc e =>
      match e with
      | ExportVal.ctor inst => if inst.hasGetName then mapSet acc inst.name inst else acc
      | ExportVal.nonCtor => acc)
    m

/-- `name.endsWith(".ts")`, as a structurally recursive character-list test
(so that concrete discovery runs evaluate inside the kernel). -/
def endsWithTs (s : String) : Bool :=
  ".ts".data.isSuffixOf s.data

/-- Process one directory entry: files not ending in `".ts"` are skipped. -/
def processFile (m : ToolMap) (f : FileEntry) : ToolMap :=
  if endsWithTs f.name then registerExports m f.exports else m

/-- The complete map built by `preloadTools` from a directory listing. -/
def preloadToolsMap (files : List FileEntry) : ToolMap :=
  files.foldl processFile []

/-- The instances a list of exports will register, in registration order:
constructors whose instance exposes `getName`. -/
def exportsInstances (es : List ExportVal) : List Instance :=
  es.filterMap
    (fun e =>
      match e with
      | ExportVal.ctor inst => if inst.hasGetName then some inst else none
      | ExportVal.nonCtor => none)

/-- The instances one directory entry will register. -/
def fileInstances (f : FileEntry) : List Instance :=
  if endsWithTs f.name then exportsInstances f.exports else []

/-- All instances discovery will register, in registration order. -/
def eligibleInstances : List FileEntry → List Instance
  | [] => []
  | f :: fs => fileInstances f ++ eligibleInstances fs

/-- The last element of `l` whose reported name is `n`. -/
def lastWithName (l : List Instance) (n : String) : Option Instance :=
  l.foldl (fun acc i => if i.name = n then some i else acc) none

/-! ### The tool registry: single-flight loading (`Helper.loadTools`)

The `Helper` runs on the single-threaded JS event loop.  `loadTools` runs a
synchronous body (`if (!this.toolsLoading) this.toolsLoading = this.preloadTools();
await this.toolsLoading;`); `preloadTools` suspends at `await readdir` and at
each dynamic module load of a `.ts` file, and `this.tools` is assigned an
empty map right after the directory listing returns and is filled in place as
imports complete.  We model this as a state machine whose events are the
atomic synchronous segments between suspension points; an event is enabled
exactly when the event loop could schedule it. -/

/-- Where the in-flight discovery task currently is. -/
inductive DiscoveryPhase where
  | notStarted
  | awaitingReaddir
  | importing (pending : List FileEntry)
  | finished
deriving DecidableEq, Repr

/-- Observable state of one `Helper` instance plus its callers.
`invoked`/`resolved` record which callers have entered `loadTools` and have
had their `await this.toolsLoading` resume; `observations` records the map
each resolved caller saw at resumption. -/
structure HelperState where
  phase : DiscoveryPhase
  tools : Option ToolMap
  startedCount : Nat
  invoked : List Nat
  resolved : List Nat
  observations : List ToolMap
deriving DecidableEq, Repr

/-- A fresh `Helper`. -/
def initHelperState : HelperState :=
  ⟨DiscoveryPhase.notStarted, none, 0, [], [], []⟩

/-- Scheduler events: a caller runs the synchronous body of `loadTools`;
the `readdir` promise resumes the discovery task; one dynamic import resumes
it; a caller's `await this.toolsLoading` resumes. -/
inductive Ev where
  | callLoad (i : Nat)
  | readdirResume
  | importResume
  | awaitReturn (i : Nat)
deriving DecidableEq, Repr

/-- Drop the directory entries the discovery loop skips synchronously. -/
def skipNonTs (fs : List FileEntry) : List FileEntry :=
  fs.dropWhile (fun f => !endsWithTs f.name)

/-- One scheduler step; `none` when the event is not enabled. -/
def helperStep (files : List FileEntry) (s : HelperState) : Ev → Option HelperState
  | Ev.callLoad i =>
    if i ∈ s.invoked then none
    else
      match s.phase with
      | DiscoveryPhase.notStarted =>
        some { s with
          phase := DiscoveryPhase.awaitingReaddir
          startedCount := s.startedCount + 1
          invoked := i :: s.invoked }
      | _ => some { s with invoked := i :: s.invoked }
  | Ev.readdirResume =>
    match s.phase with
    | DiscoveryPhase.awaitingReaddir =>
      let pending := skipNonTs files
      some { s with
        tools := some []
        phase := if pending.isEmpty then DiscoveryPhase.finished
                 else DiscoveryPhase.importing pending }
    | _ => none
  | Ev.importResume =>
    match s.phase with
    | DiscoveryPhase.importing (f :: rest) =>
      let m := processFile (s.tools.getD []) f
      let pending := skipNonTs rest
      some { s with
        tools := some m
        phase := if pending.isEmpty then DiscoveryPhase.finished
                 else DiscoveryPhase.importing pending }
    | _ => none
  | Ev.awaitReturn i =>
    if i ∈ s.invoked ∧ i ∉ s.resolved then
      match s.phase with
      | DiscoveryPhase.finished =>
        some { s with
          resolved := i :: s.resolved
          observations := s.tools.getD [] :: s.observations }
      | _ => none
    else none

/-- Run a schedule from a given state; `none` when some event is disabled. -/
def runFrom (files : List FileEntry) (s : HelperState) : List Ev → Option HelperState
  | [] => some s
  | e :: es =>
    match helperStep files s e with
    | some s2 => runFrom files s2 es
    | none => none

/-- Run a schedule from a fresh `Helper`. -/
def runTrace (files : List FileEntry) (evs : List Ev) : Option HelperState :=
  runFrom files initHelperState evs

/-- `Helper.getToolsSync`: throws until `this.tools` has been assigned. -/
def getToolsSync (s : HelperState) : Except JSError ToolMap :=
  match s.tools with
  | none => Except.error (JSError.error "Tools have not been loaded yet. Call loadTools() first.")
  | some m => Except.ok m

/-- A grid point URL accepted by the tools' validation regex. -/
def gpOK : String := "https://api.weather.gov/gridpoints/PSR/171,48"

/-! ## Theorems -/

/-- Claim C6: for every input mapping on which `validateWithDefaults`
succeeds, re-validating its output succeeds and returns an equal mapping
(idempotent normalization), for the current-weather and the hourly-forecast
tools. -/
theorem claim_C6_validate_idempotent (p v : Params) :
    (CurrentWeather.validateWithDefaults p = Except.ok v →
      CurrentWeather.validateWithDefaults v = Except.ok v)
  ∧ (HourlyForecastWeather.validateWithDefaults p = Except.ok v →
      HourlyForecastWeather.validateWithDefaults v = Except.ok v) := by
  constructor
  · intro h
    unfold CurrentWeather.validateWithDefaults at h
    split at h
    next s heq =>
      split at h
      next htest =>
        cases h
        unfold CurrentWeather.validateWithDefaults
        simp [getField, mapLookup, htest]
      next => cases h
    next => cases h
  · intro h
    unfold HourlyForecastWeather.validateWithDefaults at h
    split at h
    next s heq =>
      split at h
      next htest =>
        split at h
        next hfalsy =>
          cases h
          unfold HourlyForecastWeather.validateWithDefaults
          simp [getField, mapLookup, htest, jsFalsy]
        next hfalsy =>
          split at h
          next n heq2 =>
            split at h
            next => cases h
            next hrange =>
              cases h
              unfold HourlyForecastWeather.validateWithDefaults
              have hn0 : ¬ (n == 0) = true := by
                simp at hrange ⊢
                omega
              simp [getField, mapLookup, htest, jsFalsy, hn0, hrange]
          next => cases h
      next => cases h
    next => cases h

/-- Witness for C6 at concrete valid inputs of both tools. -/
theorem claim_C6_witness :
    CurrentWeather.validateWithDefaults [("gridPointUrl", JValue.jstr gpOK)] =
      Except.ok [("gridPointUrl", JValue.jstr gpOK)] ∧
    HourlyForecastWeather.validateWithDefaults
        [("gridPointUrl", JValue.jstr gpOK), ("forecastHours", JValue.jnum 24)] =
      Except.ok [("gridPointUrl", JValue.jstr gpOK), ("forecastHours", JValue.jnum 24)] :=
  ⟨(claim_C6_validate_idempotent [("gridPointUrl", JValue.jstr gpOK)]
      [("gridPointUrl", JValue.jstr gpOK)]).1 rfl,
   (claim_C6_validate_idempotent
      [("gridPointUrl", JValue.jstr gpOK), ("forecastHours", JValue.jnum 24)]
      [("gridPointUrl", JValue.jstr gpOK), ("forecastHours", JValue.jnum 24)]).2 rfl⟩

/-- Claim C10: a successful `validateWithDefaults` returns a mapping whose
keys are exactly the schema's declared property names, for the current-weather
and the hourly-forecast tools; extraneous caller-supplied keys are dropped. -/
theorem claim_C10_normalized_keys (p v : Params) :
    (CurrentWeather.validateWithDefaults p = Except.ok v →
      keysOf v = propNames CurrentWeather.getInputSchema)
  ∧ (HourlyForecastWeather.validateWithDefaults p = Except.ok v →
      keysOf v = propNames HourlyForecastWeather.getInputSchema) := by
  constructor
  · intro h
    unfold CurrentWeather.validateWithDefaults at h
    split at h
    next s heq =>
      split at h
      next htest =>
        cases h
        rfl
      next => cases h
    next => cases h
  · intro h
    unfold HourlyForecastWeather.validateWithDefaults at h
    split at h
    next s heq =>
      split at h
      next htest =>
        split at h
        next hfalsy =>
          cases h
          rfl
        next hfalsy =>
          split at h
          next n heq2 =>
            split at h
            next => cases h
            next hrange =>
              cases h
              rfl
          next => cases h
      next => cases h
    next => cases h

/-- Witness for C10: extraneous keys are dropped from a raw input. -/
theorem claim_C10_witness :
    keysOf [("gridPointUrl", JValue.jstr gpOK)] = propNames CurrentWeather.getInputSchema ∧
    keysOf [("gridPointUrl", JValue.jstr gpOK), ("forecastHours", JValue.jnum 24)] =
      propNames HourlyForecastWeather.getInputSchema :=
  ⟨(claim_C10_normalized_keys
      [("gridPointUrl", JValue.jstr gpOK), ("extra", JValue.jnum 1)]
      [("gridPointUrl", JValue.jstr gpOK)]).1 rfl,
   (claim_C10_normalized_keys
      [("gridPointUrl", JValue.jstr gpOK), ("extra", JValue.jnum 1)]
      [("gridPointUrl", JValue.jstr gpOK), ("forecastHours", JValue.jnum 24)]).2 rfl⟩

/-- Counterexample to claim C8: `forecastHours: 0` is a number outside the
declared range `[1, 156]`, yet validation does not fail with a
`ToolValidationError` — the falsy value is treated as omitted and silently
replaced by the default 24 (the repository's own test suite asserts this
behavior). -/
theorem claim_C8_counterexample :
    HourlyForecastWeather.validateWithDefaults
        [("gridPointUrl", JValue.jstr gpOK), ("forecastHours", JValue.jnum 0)] =
      Except.ok [("gridPointUrl", JValue.jstr gpOK), ("forecastHours", JValue.jnum 24)] ∧
    (0 : Int) < 1 :=
  ⟨rfl, by norm_num⟩

/-- Claim C8 as amended: with a valid `gridPointUrl`, an omitted
`forecastHours` is defaulted to the schema's declared default 24; a supplied
falsy `forecastHours` (such as the number 0) is likewise defaulted; and every
supplied truthy `forecastHours` that is not a number in the schema's declared
range `[1, 156]` fails with a `ToolValidationError` describing the field. -/
theorem claim_C8_amended (g : String) (hg : gridPointUrlTest g = true) :
    (HourlyForecastWeather.validateWithDefaults [("gridPointUrl", JValue.jstr g)] =
       Except.ok [("gridPointUrl", JValue.jstr g), ("forecastHours", JValue.jnum 24)])
  ∧ (∀ w : JValue, jsFalsy (some w) = true →
      HourlyForecastWeather.validateWithDefaults
          [("gridPointUrl", JValue.jstr g), ("forecastHours", w)] =
        Except.ok [("gridPointUrl", JValue.jstr g), ("forecastHours", JValue.jnum 24)])
  ∧ (∀ w : JValue, jsFalsy (some w) = false →
      (∀ n : Int, w = JValue.jnum n → n < 1 ∨ n > 156) →
      HourlyForecastWeather.validateWithDefaults
          [("gridPointUrl", JValue.jstr g), ("forecastHours", w)] =
        Except.error (JSError.toolValidationError (invalidForecastHoursMsg (some w))))
  ∧ mapLookup HourlyForecastWeather.getInputSchema.properties "forecastHours" =
      some ⟨"number", some 24, some 1, some 156⟩ := by
  refine ⟨?_, ?_, ?_, rfl⟩
  · unfold HourlyForecastWeather.validateWithDefaults
    simp [getField, mapLookup, hg, jsFalsy]
  · intro w hfalsy
    unfold HourlyForecastWeather.validateWithDefaults
    simp [getField, mapLookup, hg, hfalsy]
  · intro w hfalsy hyp
    unfold HourlyForecastWeather.validateWithDefaults
    cases w with
    | jnull => simp [jsFalsy] at hfalsy
    | jbool b =>
      cases b with
      | false => simp [jsFalsy] at hfalsy
      | true => simp [getField, mapLookup, hg, jsFalsy]
    | jnum n =>
      have hrange := hyp n rfl
      simp [getField, mapLookup, hg, jsFalsy, hfalsy, hrange]
      simp [jsFalsy] at hfalsy
      simp [hfalsy]
    | jstr s =>
      have hs : ¬ s = "" := by
        intro h0
        rw [h0] at hfalsy
        simp [jsFalsy] at hfalsy
      simp [getField, mapLookup, hg, jsFalsy, hs]

/-- Witness for C8 (amended) at a concrete valid URL and an out-of-range
supplied value. -/
theorem claim_C8_amended_witness :
    HourlyForecastWeather.validateWithDefaults
        [("gridPointUrl", JValue.jstr gpOK), ("forecastHours", JValue.jnum 157)] =
      Except.error (JSError.toolValidationError
        (invalidForecastHoursMsg (some (JValue.jnum 157)))) :=
  (claim_C8_amended gpOK rfl).2.2.1 (JValue.jnum 157) rfl
    (fun n hn => by cases hn; omega)

/-- Claim C1: for every tool extending the base template and every request,
`handleRequest` resolves to `{content: [{type: "text", text: m}]}` when
`validateWithDefaults` throws a `ToolValidationError` with message `m`; it
propagates any other validation error unchanged; and on successful validation
it returns the result of `processToolWorkflow` on the normalized parameters
unchanged (so workflow errors, which are promise rejections of the `async`
workflow, also propagate unchanged). -/
theorem claim_C1_handleRequest_pipeline (t : Tool) (req : Request) :
    (∀ m, t.validateWithDefaults req.params = Except.error (JSError.toolValidationError m) →
      AbstractTool.handleRequest t req =
        Except.ok (Promise.resolved (validationTextResult m)))
  ∧ (∀ m, t.validateWithDefaults req.params = Except.error (JSError.error m) →
      AbstractTool.handleRequest t req = Except.error (JSError.error m))
  ∧ (∀ v, t.validateWithDefaults req.params = Except.ok v →
      AbstractTool.handleRequest t req = Except.ok (t.processToolWorkflow v)) := by
  refine ⟨?_, ?_, ?_⟩ <;> intro x hx <;>
    simp [AbstractTool.handleRequest, handleRequestGen, hx]

/-- A demonstration tool whose validator accepts everything and whose
workflow echoes a fixed content block. -/
def echoTool : Tool :=
  ⟨fun p => Except.ok p,
   fun _ => Promise.resolved ⟨[⟨"text", "hi", none⟩]⟩⟩

/-- A demonstration tool whose validator always throws a `ToolValidationError`. -/
def rejectingTool : Tool :=
  ⟨fun _ => Except.error (JSError.toolValidationError "Invalid input"),
   fun _ => Promise.resolved ⟨[⟨"text", "unreachable", none⟩]⟩⟩

/-- Witness for C1: the successful-validation path and the recovered
`ToolValidationError` path at concrete tools. -/
theorem claim_C1_witness :
    AbstractTool.handleRequest echoTool ⟨[]⟩ =
      Except.ok (Promise.resolved ⟨[⟨"text", "hi", none⟩]⟩) ∧
    AbstractTool.handleRequest rejectingTool ⟨[]⟩ =
      Except.ok (Promise.resolved (validationTextResult "Invalid input")) :=
  ⟨(claim_C1_handleRequest_pipeline echoTool ⟨[]⟩).2.2 [] rfl,
   (claim_C1_handleRequest_pipeline rejectingTool ⟨[]⟩).1 "Invalid input" rfl⟩

/-- Claim C9: a `ToolValidationError` carried by a rejection of the promise
returned by `processToolWorkflow` is not converted into a text content block:
the catch clause of `handleRequest` sees only synchronous throws, so the
rejected promise is returned to the caller unchanged. -/
theorem claim_C9_async_validation_error_propagates
    (validate : Params → Except JSError Params)
    (workflow : Params → Except JSError (Promise HandlerResult))
    (req : Request) (v : Params) (m : String)
    (hv : validate req.params = Except.ok v)
    (hw : workflow v = Except.ok (Promise.rejected (JSError.toolValidationError m))) :
    handleRequestGen validate workflow req =
      Except.ok (Promise.rejected (JSError.toolValidationError m)) ∧
    ∀ s, handleRequestGen validate workflow req ≠
      Except.ok (Promise.resolved (validationTextResult s)) := by
  have h : handleRequestGen validate workflow req =
      Except.ok (Promise.rejected (JSError.toolValidationError m)) := by
    simp [handleRequestGen, hv, hw]
  exact ⟨h, fun s hcontra => by rw [h] at hcontra; cases hcontra⟩

/-- A workflow returning a promise rejected with a `ToolValidationError`. -/
def asyncFailingWorkflow : Params → Except JSError (Promise HandlerResult) :=
  fun _ => Except.ok (Promise.rejected (JSError.toolValidationError "late failure"))

/-- Witness for C9 at a concrete validator and workflow. -/
theorem claim_C9_witness :
    handleRequestGen (fun p => Except.ok p) asyncFailingWorkflow ⟨[]⟩ =
      Except.ok (Promise.rejected (JSError.toolValidationError "late failure")) :=
  (claim_C9_async_validation_error_propagates (fun p => Except.ok p)
    asyncFailingWorkflow ⟨[]⟩ [] "late failure" rfl rfl).1

/-- Claim C2: `callToolHandler` rejects with a message containing the
requested name and "not found or no arguments provided" when the name is not
a registry key or the arguments are undefined; rejects with a message
containing the name and "not instantiated" when the name maps to a falsy
instance; and otherwise awaits `tool.handleRequest({params: arguments})` and
returns that result unchanged. -/
theorem claim_C2_dispatch_contract (registry : Registry) (name : String)
    (arguments : Option Params) :
    ((mapLookup registry name = none ∨ arguments = none) →
      ∃ msg, callToolHandler registry name arguments = Except.error (JSError.error msg) ∧
        SubstringOf name msg ∧ SubstringOf "not found or no arguments provided" msg)
  ∧ (∀ args, mapLookup registry name = some none → arguments = some args →
      ∃ msg, callToolHandler registry name arguments = Except.error (JSError.error msg) ∧
        SubstringOf name msg ∧ SubstringOf "not instantiated" msg)
  ∧ (∀ tool args, mapLookup registry name = some (some tool) → arguments = some args →
      callToolHandler registry name arguments =
        awaitPromise (AbstractTool.handleRequest tool ⟨args⟩)) := by
  refine ⟨?_, ?_, ?_⟩
  · intro h
    refine ⟨"Tool \"" ++ name ++ "\" not found or no arguments provided.", ?_, ?_, ?_⟩
    · rcases h with h | h
      · simp [callToolHandler, mapHas, h]
      · simp [callToolHandler, mapHas, h]
    · exact ⟨"Tool \"", "\" not found or no arguments provided.", rfl⟩
    · exact ⟨"Tool \"" ++ name ++ "\" ", ".", by simp [String.append_assoc]⟩
  · intro args hlook hargs
    refine ⟨"Tool \"" ++ name ++ "\" not instantiated.", ?_, ?_, ?_⟩
    · simp [callToolHandler, mapHas, hlook, hargs]
    · exact ⟨"Tool \"", "\" not instantiated.", rfl⟩
    · exact ⟨"Tool \"" ++ name ++ "\" ", ".", by simp [String.append_assoc]⟩
  · intro tool args hlook hargs
    simp [callToolHandler, mapHas, hlook, hargs]

/-- A one-tool registry for the dispatch witnesses. -/
def demoRegistry : Registry := [("echo", some echoTool)]

/-- Witness for C2: the missing-tool rejection and the forwarding path at a
concrete registry. -/
theorem claim_C2_witness :
    (∃ msg, callToolHandler demoRegistry "missing" (some []) =
        Except.error (JSError.error msg) ∧
      SubstringOf "missing" msg ∧ SubstringOf "not found or no arguments provided" msg) ∧
    callToolHandler demoRegistry "echo" (some []) =
      awaitPromise (AbstractTool.handleRequest echoTool ⟨[]⟩) :=
  ⟨(claim_C2_dispatch_contract demoRegistry "missing" (some [])).1 (Or.inl rfl),
   (claim_C2_dispatch_contract demoRegistry "echo" (some [])).2.2 echoTool [] rfl rfl⟩

/-! ### Registry discovery: last-registered-wins characterization (C4) -/

/-- Left-biased choice, modelling "later registration overrides earlier". -/
def optOr {α : Type} : Option α → Option α → Option α
  | some a, _ => some a
  | none, b => b

theorem optOr_none_right {α : Type} (a : Option α) : optOr a none = a := by
  cases a <;> rfl

theorem optOr_assoc {α : Type} (a b c : Option α) :
    optOr (optOr a b) c = optOr a (optOr b c) := by
  cases a <;> cases b <;> rfl

theorem mapLookup_mapSet (m : ToolMap) (k : String) (v : Instance) (n : String) :
    mapLookup (mapSet m k v) n = if k = n then some v else mapLookup m n := by
  induction m with
  | nil => rfl
  | cons kv rest ih =>
    obtain ⟨k', v'⟩ := kv
    by_cases hk : k' = k
    · subst hk
      simp only [mapSet, if_pos rfl, mapLookup]
      by_cases hn : k' = n <;> simp [hn]
    · simp only [mapSet, if_neg hk, mapLookup]
      by_cases hn : k' = n
      · subst hn
        have hkn : ¬ k = k' := fun h => hk h.symm
        simp [hkn]
      · simp [hn, ih]

theorem lastWithName_foldl_acc (n : String) (l : List Instance) (acc : Option Instance) :
    l.foldl (fun a i => if i.name = n then some i else a) acc =
      optOr (lastWithName l n) acc := by
  induction l generalizing acc with
  | nil => rfl
  | cons i l ih =>
    simp only [lastWithName, List.foldl] at ih ⊢
    rw [ih (if i.name = n then some i else acc),
        ih (if i.name = n then some i else none)]
    by_cases hi : i.name = n
    · rw [if_pos hi, if_pos hi]
      cases hL : List.foldl (fun a i => if i.name = n then some i else a) none l <;>
        simp [optOr]
    · rw [if_neg hi, if_neg hi]
      cases hL : List.foldl (fun a i => if i.name = n then some i else a) none l <;>
        simp [optOr]

theorem lastWithName_cons (i : Instance) (l : List Instance) (n : String) :
    lastWithName (i :: l) n =
      optOr (lastWithName l n) (if i.name = n then some i else none) := by
  simp only [lastWithName, List.foldl]
  exact lastWithName_foldl_acc n l (if i.name = n then some i else none)

theorem lastWithName_append (l1 l2 : List Instance) (n : String) :
    lastWithName (l1 ++ l2) n = optOr (lastWithName l2 n) (lastWithName l1 n) := by
  simp only [lastWithName, List.foldl_append]
  exact lastWithName_foldl_acc n l2
    (List.foldl (fun a i => if i.name = n then some i else a) none l1)

theorem exportsInstances_cons_ctor (inst : Instance) (es : List ExportVal)
    (h : inst.hasGetName = true) :
    exportsInstances (ExportVal.ctor inst :: es) = inst :: exportsInstances es := by
  simp [exportsInstances, List.filterMap_cons, h]

theorem exportsInstances_cons_ctor_no (inst : Instance) (es : List ExportVal)
    (h : ¬ inst.hasGetName = true) :
    exportsInstances (ExportVal.ctor inst :: es) = exportsInstances es := by
  simp [exportsInstances, List.filterMap_cons, h]

theorem registerExports_lookup (es : List ExportVal) (m : ToolMap) (n : String) :
    mapLookup (registerExports m es) n =
      optOr (lastWithName (exportsInstances es) n) (mapLookup m n) := by
  induction es generalizing m with
  | nil => rfl
  | cons e es ih =>
    cases e with
    | nonCtor =>
      have hre : registerExports m (ExportVal.nonCtor :: es) = registerExports m es := rfl
      have hex : exportsInstances (ExportVal.nonCtor :: es) = exportsInstances es := by
        simp [exportsInstances, List.filterMap_cons]
      rw [hre, hex]
      exact ih m
    | ctor inst =>
      by_cases hgn : inst.hasGetName
      · have hre : registerExports m (ExportVal.ctor inst :: es) =
            registerExports (mapSet m inst.name inst) es := by
          simp [registerExports, hgn]
        rw [hre, ih (mapSet m inst.name inst),
            exportsInstances_cons_ctor inst es hgn, lastWithName_cons,
            mapLookup_mapSet, optOr_assoc]
        by_cases hi : inst.name = n <;> simp [hi, optOr]
      · have hre : registerExports m (ExportVal.ctor inst :: es) = registerExports m es := by
          simp [registerExports, hgn]
        rw [hre, ih m, exportsInstances_cons_ctor_no inst es hgn]

theorem foldl_processFile_lookup (files : List FileEntry) (m : ToolMap) (n : String) :
    mapLookup (files.foldl processFile m) n =
      optOr (lastWithName (eligibleInstances files) n) (mapLookup m n) := by
  induction files generalizing m with
  | nil => rfl
  | cons f fs ih =>
    have hstep : List.foldl processFile m (f :: fs) =
        List.foldl processFile (processFile m f) fs := rfl
    rw [hstep, ih (processFile m f)]
    have hpf : mapLookup (processFile m f) n =
        optOr (lastWithName (fileInstances f) n) (mapLookup m n) := by
      by_cases hts : endsWithTs f.name
      · rw [show processFile m f = registerExports m f.exports by simp [processFile, hts],
            show fileInstances f = exportsInstances f.exports by simp [fileInstances, hts]]
        exact registerExports_lookup f.exports m n
      · rw [show processFile m f = m by simp [processFile, hts],
            show fileInstances f = [] by simp [fileInstances, hts]]
        rfl
    rw [hpf, show eligibleInstances (f :: fs) = fileInstances f ++ eligibleInstances fs
          from rfl,
        lastWithName_append, optOr_assoc]

theorem keys_mem_mapSet (m : ToolMap) (k : String) (v : Instance) (x : String) :
    x ∈ (mapSet m k v).map Prod.fst ↔ x ∈ m.map Prod.fst ∨ x = k := by
  induction m with
  | nil => simp [mapSet]
  | cons kv rest ih =>
    obtain ⟨k', v'⟩ := kv
    by_cases hk : k' = k
    · subst hk
      simp only [mapSet, if_pos rfl, List.map, List.mem_cons]
      tauto
    · simp only [mapSet, if_neg hk, List.map, List.mem_cons, ih]
      tauto

theorem nodup_keys_mapSet (m : ToolMap) (k : String) (v : Instance)
    (h : (m.map Prod.fst).Nodup) : ((mapSet m k v).map Prod.fst).Nodup := by
  induction m with
  | nil => simp [mapSet]
  | cons kv rest ih =>
    obtain ⟨k', v'⟩ := kv
    simp only [List.map, List.nodup_cons] at h
    by_cases hk : k' = k
    · subst hk
      simp only [mapSet, if_pos rfl, List.map, List.nodup_cons]
      exact h
    · simp only [mapSet, if_neg hk, List.map, List.nodup_cons]
      refine ⟨?_, ih h.2⟩
      intro hmem
      rcases (keys_mem_mapSet rest k v k').1 hmem with h1 | h1
      · exact h.1 h1
      · exact hk h1

theorem nodup_keys_registerExports (es : List ExportVal) (m : ToolMap)
    (h : (m.map Prod.fst).Nodup) : ((registerExports m es).map Prod.fst).Nodup := by
  induction es generalizing m with
  | nil => exact h
  | cons e es ih =>
    cases e with
    | nonCtor => exact ih m h
    | ctor inst =>
      by_cases hgn : inst.hasGetName
      · have hre : registerExports m (ExportVal.ctor inst :: es) =
            registerExports (mapSet m inst.name inst) es := by
          simp [registerExports, hgn]
        rw [hre]
        exact ih (mapSet m inst.name inst) (nodup_keys_mapSet m inst.name inst h)
      · have hre : registerExports m (ExportVal.ctor inst :: es) = registerExports m es := by
          simp [registerExports, hgn]
        rw [hre]
        exact ih m h

theorem nodup_keys_foldl_processFile (files : List FileEntry) (m : ToolMap)
    (h : (m.map Prod.fst).Nodup) :
    ((files.foldl processFile m).map Prod.fst).Nodup := by
  induction files generalizing m with
  | nil => exact h
  | cons f fs ih =>
    refine ih (processFile m f) ?_
    by_cases hts : endsWithTs f.name
    · rw [show processFile m f = registerExports m f.exports by simp [processFile, hts]]
      exact nodup_keys_registerExports f.exports m h
    · rwa [show processFile m f = m by simp [processFile, hts]]

theorem lastWithName_name (l : List Instance) (n : String) (i : Instance)
    (h : lastWithName l n = some i) : i.name = n := by
  induction l generalizing i with
  | nil => cases h
  | cons j l ih =>
    rw [lastWithName_cons] at h
    rcases hl : lastWithName l n with _ | i'
    · rw [hl] at h
      simp only [optOr] at h
      by_cases hj : j.name = n
      · rw [if_pos hj] at h
        cases h
        exact hj
      · rw [if_neg hj] at h
        cases h
    · rw [hl] at h
      simp only [optOr] at h
      cases h
      exact ih _ hl

/-- Claim C4: after discovery, the registry map has no duplicate keys; looking
up a name yields exactly the last-registered eligible instance with that name
(eligible: export of a file whose name ends in `".ts"`, constructible, with a
`getName` capability), keyed by the name the instance reports; non-matching
files and non-constructor exports contribute nothing. -/
theorem claim_C4_discovery_registration (files : List FileEntry) :
    ((preloadToolsMap files).map Prod.fst).Nodup
  ∧ (∀ n, mapLookup (preloadToolsMap files) n = lastWithName (eligibleInstances files) n)
  ∧ (∀ n i, mapLookup (preloadToolsMap files) n = some i → i.name = n) := by
  have hlook : ∀ n, mapLookup (preloadToolsMap files) n =
      lastWithName (eligibleInstances files) n := by
    intro n
    rw [preloadToolsMap, foldl_processFile_lookup files [] n]
    exact optOr_none_right _
  refine ⟨?_, hlook, ?_⟩
  · exact nodup_keys_foldl_processFile files [] (by simp)
  · intro n i h
    rw [hlook n] at h
    exact lastWithName_name (eligibleInstances files) n i h

/-! ### Single-flight loading: invariants (C3, C5) -/

theorem foldl_processFile_takeWhile (l : List FileEntry) (m : ToolMap) :
    List.foldl processFile m (l.takeWhile (fun f => !endsWithTs f.name)) = m := by
  induction l generalizing m with
  | nil => rfl
  | cons f fs ih =>
    by_cases hts : endsWithTs f.name
    · rw [show (f :: fs).takeWhile (fun f => !endsWithTs f.name) = [] by
        simp [List.takeWhile_cons, hts]]
      rfl
    · rw [show (f :: fs).takeWhile (fun f => !endsWithTs f.name)
            = f :: fs.takeWhile (fun f => !endsWithTs f.name) by
          simp [List.takeWhile_cons, hts]]
      rw [show List.foldl processFile m
            (f :: fs.takeWhile (fun f => !endsWithTs f.name))
          = List.foldl processFile (processFile m f)
            (fs.takeWhile (fun f => !endsWithTs f.name)) from rfl]
      rw [show processFile m f = m by simp [processFile, hts]]
      exact ih m

theorem foldl_processFile_skipNonTs (l : List FileEntry) (m : ToolMap) :
    List.foldl processFile m (skipNonTs l) = List.foldl processFile m l := by
  conv_rhs => rw [← List.takeWhile_append_dropWhile (fun f => !endsWithTs f.name) l]
  rw [List.foldl_append, foldl_processFile_takeWhile]
  rfl

/-- State invariant of the helper state machine: what `this.tools` holds in
each phase of discovery, that discovery starts at most once, that resolution
implies completion, and that resolved callers observed the completed map. -/
def helperInv (files : List FileEntry) (s : HelperState) : Prop :=
  (s.phase = DiscoveryPhase.notStarted → s.tools = none ∧ s.startedCount = 0)
  ∧ (s.phase = DiscoveryPhase.awaitingReaddir → s.tools = none ∧ s.startedCount = 1)
  ∧ (∀ pending, s.phase = DiscoveryPhase.importing pending →
      s.startedCount = 1 ∧
      ∃ done, files = done ++ pending ∧
        s.tools = some (List.foldl processFile [] done))
  ∧ (s.phase = DiscoveryPhase.finished →
      s.startedCount = 1 ∧ s.tools = some (preloadToolsMap files))
  ∧ (s.phase = DiscoveryPhase.notStarted → s.invoked = [])
  ∧ (s.resolved ≠ [] → s.phase = DiscoveryPhase.finished)
  ∧ (∀ m ∈ s.observations, m = preloadToolsMap files)

theorem helperInv_init (files : List FileEntry) : helperInv files initHelperState := by
  refine ⟨fun _ => ⟨rfl, rfl⟩, ?_, ?_, ?_, fun _ => rfl, ?_, ?_⟩
  · intro h
    cases h
  · intro pending h
    cases h
  · intro h
    cases h
  · intro h
    exact absurd rfl h
  · intro m hm
    exact absurd hm (by simp [initHelperState])

theorem helperStep_inv_callLoad (files : List FileEntry) (s s2 : HelperState) (i : Nat)
    (hinv : helperInv files s) (hstep : helperStep files s (Ev.callLoad i) = some s2) :
    helperInv files s2 := by
  obtain ⟨hns, har, himp, hfin, hinvoked, hres, hobs⟩ := hinv
  simp only [helperStep] at hstep
  split at hstep
  · cases hstep
  · split at hstep <;> cases hstep
    next heq =>
      refine ⟨?_, ?_, ?_, ?_, ?_, ?_, hobs⟩
      · intro h
        cases h
      · intro _
        exact ⟨(hns heq).1, by rw [(hns heq).2]⟩
      · intro pending h
        cases h
      · intro h
        cases h
      · intro h
        cases h
      · intro h
        rw [heq] at hres
        exact absurd (hres h) (by intro hc; cases hc)
    next hne =>
      refine ⟨?_, ?_, ?_, ?_, ?_, ?_, hobs⟩
      · intro h
        exact hns h
      · intro h
        exact har h
      · intro pending h
        exact himp pending h
      · intro h
        exact hfin h
      · intro h
        exact absurd h hne
      · intro h
        exact hres h

theorem helperStep_inv_readdir (files : List FileEntry) (s s2 : HelperState)
    (hinv : helperInv files s) (hstep : helperStep files s Ev.readdirResume = some s2) :
    helperInv files s2 := by
  obtain ⟨hns, har, himp, hfin, hinvoked, hres, hobs⟩ := hinv
  simp only [helperStep] at hstep
  split at hstep
  case _ heq =>
    cases hstep
    by_cases hempty : (skipNonTs files).isEmpty
    · rw [if_pos hempty]
      have hmap : preloadToolsMap files = [] := by
        rw [preloadToolsMap, ← foldl_processFile_skipNonTs,
            List.isEmpty_iff.mp hempty]
        rfl
      refine ⟨?_, ?_, ?_, ?_, ?_, ?_, hobs⟩
      · intro h
        cases h
      · intro h
        cases h
      · intro pending h
        cases h
      · intro _
        exact ⟨(har heq).2, by rw [hmap]⟩
      · intro h
        cases h
      · intro _
        rfl
    · rw [if_neg hempty]
      refine ⟨?_, ?_, ?_, ?_, ?_, ?_, hobs⟩
      · intro h
        cases h
      · intro h
        cases h
      · intro pending h
        cases h
        refine ⟨(har heq).2, files.takeWhile (fun f => !endsWithTs f.name), ?_, ?_⟩
        · exact (List.takeWhile_append_dropWhile (fun f => !endsWithTs f.name) files).symm
        · rw [foldl_processFile_takeWhile]
      · intro h
        cases h
      · intro h
        cases h
      · intro h
        rw [heq] at hres
        exact absurd (hres h) (by intro hc; cases hc)
  case _ =>
    cases hstep

theorem helperStep_inv_importResume (files : List FileEntry) (s s2 : HelperState)
    (hinv : helperInv files s) (hstep : helperStep files s Ev.importResume = some s2) :
    helperInv files s2 := by
  obtain ⟨hns, har, himp, hfin, hinvoked, hres, hobs⟩ := hinv
  simp only [helperStep] at hstep
  split at hstep
  case _ f rest heq =>
    cases hstep
    obtain ⟨hcount, done, hfiles, htools⟩ := himp (f :: rest) heq
    have htoolsD : s.tools.getD [] = List.foldl processFile [] done := by
      rw [htools]
      rfl
    by_cases hempty : (skipNonTs rest).isEmpty
    · rw [if_pos hempty]
      have hmap : preloadToolsMap files = processFile (s.tools.getD []) f := by
        have h1 := foldl_processFile_skipNonTs rest
          (processFile (List.foldl processFile [] done) f)
        rw [List.isEmpty_iff.mp hempty, List.foldl_nil] at h1
        rw [preloadToolsMap, hfiles, List.foldl_append, List.foldl_cons, ← h1, htoolsD]
      refine ⟨?_, ?_, ?_, ?_, ?_, ?_, hobs⟩
      · intro h
        cases h
      · intro h
        cases h
      · intro pending h
        cases h
      · intro _
        exact ⟨hcount, by rw [hmap]⟩
      · intro h
        cases h
      · intro _
        rfl
    · rw [if_neg hempty]
      refine ⟨?_, ?_, ?_, ?_, ?_, ?_, hobs⟩
      · intro h
        cases h
      · intro h
        cases h
      · intro pending h
        cases h
        refine ⟨hcount,
          done ++ f :: rest.takeWhile (fun f => !endsWithTs f.name), ?_, ?_⟩
        · rw [hfiles, List.append_assoc, List.cons_append,
              show skipNonTs rest
                = rest.dropWhile (fun f => !endsWithTs f.name) from rfl,
              List.takeWhile_append_dropWhile]
        · rw [htoolsD, List.foldl_append, List.foldl_cons, foldl_processFile_takeWhile]
      · intro h
        cases h
      · intro h
        cases h
      · intro h
        rw [heq] at hres
        exact absurd (hres h) (by intro hc; cases hc)
  case _ =>
    cases hstep

theorem helperStep_inv_awaitReturn (files : List FileEntry) (s s2 : HelperState) (i : Nat)
    (hinv : helperInv files s) (hstep : helperStep files s (Ev.awaitReturn i) = some s2) :
    helperInv files s2 := by
  obtain ⟨hns, har, himp, hfin, hinvoked, hres, hobs⟩ := hinv
  simp only [helperStep] at hstep
  split at hstep
  · split at hstep
    case _ heq =>
      cases hstep
      refine ⟨?_, ?_, ?_, ?_, ?_, ?_, ?_⟩
      · intro h
        replace h : s.phase = DiscoveryPhase.notStarted := h
        rw [heq] at h
        cases h
      · intro h
        replace h : s.phase = DiscoveryPhase.awaitingReaddir := h
        rw [heq] at h
        cases h
      · intro pending h
        replace h : s.phase = DiscoveryPhase.importing pending := h
        rw [heq] at h
        cases h
      · intro _
        exact hfin heq
      · intro h
        replace h : s.phase = DiscoveryPhase.notStarted := h
        rw [heq] at h
        cases h
      · intro _
        exact heq
      · intro m hm
        rcases List.mem_cons.mp hm with h1 | h1
        · rw [h1, (hfin heq).2]
          rfl
        · exact hobs m h1
    case _ =>
      cases hstep
  · cases hstep

theorem helperStep_inv (files : List FileEntry) (s s2 : HelperState) (e : Ev)
    (hinv : helperInv files s) (hstep : helperStep files s e = some s2) :
    helperInv files s2 := by
  cases e with
  | callLoad i => exact helperStep_inv_callLoad files s s2 i hinv hstep
  | readdirResume => exact helperStep_inv_readdir files s s2 hinv hstep
  | importResume => exact helperStep_inv_importResume files s s2 hinv hstep
  | awaitReturn i => exact helperStep_inv_awaitReturn files s s2 i hinv hstep

theorem runFrom_inv (files : List FileEntry) (evs : List Ev) (s s2 : HelperState)
    (hinv : helperInv files s) (hrun : runFrom files s evs = some s2) :
    helperInv files s2 := by
  induction evs generalizing s with
  | nil =>
    cases hrun
    exact hinv
  | cons e evs ih =>
    simp only [runFrom] at hrun
    rcases hstep : helperStep files s e with _ | s1
    · rw [hstep] at hrun
      cases hrun
    · rw [hstep] at hrun
      exact ih s1 (helperStep_inv files s s1 e hinv hstep) hrun

theorem runTrace_inv (files : List FileEntry) (evs : List Ev) (s : HelperState)
    (hrun : runTrace files evs = some s) : helperInv files s :=
  runFrom_inv files evs initHelperState s (helperInv_init files) hrun

/-- Once discovery has finished, no event changes the phase or the map. -/
theorem helperStep_finished (files : List FileEntry) (s s2 : HelperState) (e : Ev)
    (hfin : s.phase = DiscoveryPhase.finished) (htools : s.tools = some (preloadToolsMap files))
    (hstep : helperStep files s e = some s2) :
    s2.phase = DiscoveryPhase.finished ∧ s2.tools = some (preloadToolsMap files) := by
  cases e with
  | callLoad i =>
    simp only [helperStep] at hstep
    split at hstep
    · cases hstep
    · split at hstep <;> cases hstep
      next heq =>
        rw [heq] at hfin
        cases hfin
      next =>
        exact ⟨hfin, htools⟩
  | readdirResume =>
    simp only [helperStep] at hstep
    split at hstep
    case _ heq =>
      rw [heq] at hfin
      cases hfin
    case _ =>
      cases hstep
  | importResume =>
    simp only [helperStep] at hstep
    split at hstep
    case _ f rest heq =>
      rw [heq] at hfin
      cases hfin
    case _ =>
      cases hstep
  | awaitReturn i =>
    simp only [helperStep] at hstep
    split at hstep
    · split at hstep
      case _ heq =>
        cases hstep
        exact ⟨heq, htools⟩
      case _ =>
        cases hstep
    · cases hstep

theorem runFrom_finished (files : List FileEntry) (evs : List Ev) (s s2 : HelperState)
    (hfin : s.phase = DiscoveryPhase.finished) (htools : s.tools = some (preloadToolsMap files))
    (hrun : runFrom files s evs = some s2) :
    s2.phase = DiscoveryPhase.finished ∧ s2.tools = some (preloadToolsMap files) := by
  induction evs generalizing s with
  | nil =>
    cases hrun
    exact ⟨hfin, htools⟩
  | cons e evs ih =>
    simp only [runFrom] at hrun
    rcases hstep : helperStep files s e with _ | s1
    · rw [hstep] at hrun
      cases hrun
    · rw [hstep] at hrun
      obtain ⟨h1, h2⟩ := helperStep_finished files s s1 e hfin htools hstep
      exact ih s1 h1 h2 hrun

/-- Claim C3: in every schedule of concurrent `loadTools` callers, discovery
starts at most once; once at least one caller has invoked `loadTools`,
discovery has started exactly once; a caller's promise resolves only after
discovery has fully completed; and every resolved caller observes the same
completed map, namely the one discovery built. -/
theorem claim_C3_single_flight (files : List FileEntry) (evs : List Ev) (s : HelperState)
    (hrun : runTrace files evs = some s) :
    s.startedCount ≤ 1
  ∧ (s.invoked ≠ [] → s.startedCount = 1)
  ∧ (s.resolved ≠ [] → s.phase = DiscoveryPhase.finished)
  ∧ (∀ m ∈ s.observations, m = preloadToolsMap files) := by
  obtain ⟨hns, har, himp, hfin, hinvoked, hres, hobs⟩ := runTrace_inv files evs s hrun
  have hcount : s.phase = DiscoveryPhase.notStarted ∨ s.startedCount = 1 := by
    rcases hphase : s.phase with _ | _ | pending | _
    · exact Or.inl rfl
    · exact Or.inr (har hphase).2
    · exact Or.inr (himp pending hphase).1
    · exact Or.inr (hfin hphase).1
  refine ⟨?_, ?_, hres, hobs⟩
  · rcases hcount with h | h
    · rw [(hns h).2]
      exact Nat.zero_le 1
    · rw [h]
  · intro hne
    rcases hcount with h | h
    · exact absurd (hinvoked h) hne
    · exact h

/-- Directory listing used by the concrete registry schedules. -/
def c5Files : List FileEntry :=
  [⟨"A.ts", [ExportVal.ctor ⟨true, "a", 0⟩]⟩, ⟨"B.ts", [ExportVal.ctor ⟨true, "b", 1⟩]⟩]

/-- A schedule that stops in the middle of discovery: one caller, the
directory listing has resumed, the first module import has completed, the
second is still pending. -/
def c5MidTrace : List Ev := [Ev.callLoad 0, Ev.readdirResume, Ev.importResume]

/-- The helper state reached by `c5MidTrace`. -/
def c5MidState : HelperState :=
  ⟨DiscoveryPhase.importing [⟨"B.ts", [ExportVal.ctor ⟨true, "b", 1⟩]⟩],
   some [("a", ⟨true, "a", 0⟩)], 1, [0], [], []⟩

/-- A schedule that runs the same discovery to completion. -/
def c5DoneTrace : List Ev :=
  [Ev.callLoad 0, Ev.readdirResume, Ev.importResume, Ev.importResume]

/-- The helper state reached by `c5DoneTrace`. -/
def c5DoneState : HelperState :=
  ⟨DiscoveryPhase.finished,
   some [("a", ⟨true, "a", 0⟩), ("b", ⟨true, "b", 1⟩)], 1, [0], [], []⟩

/-- Counterexample to claim C5: mid-discovery (after the directory listing
has returned, while the second dynamic import is pending, no `loadTools` call
completed yet), `getToolsSync` does not throw — it returns a partially
populated map missing tool `"b"`. -/
theorem claim_C5_counterexample :
    runTrace c5Files c5MidTrace = some c5MidState ∧
    c5MidState.resolved = [] ∧
    c5MidState.phase ≠ DiscoveryPhase.finished ∧
    getToolsSync c5MidState = Except.ok [("a", ⟨true, "a", 0⟩)] ∧
    preloadToolsMap c5Files = [("a", ⟨true, "a", 0⟩), ("b", ⟨true, "b", 1⟩)] := by
  refine ⟨by decide, rfl, ?_, rfl, by decide⟩
  intro h
  cases h

/-- Claim C5 as amended: `getToolsSync` throws the "not loaded" error exactly
while the tools field is still unassigned (before the first discovery's
directory listing has resumed); once discovery has finished it returns the
fully populated map, and it keeps returning that same map in every later
state. -/
theorem claim_C5_amended (files : List FileEntry) (evs : List Ev) (s : HelperState)
    (hrun : runTrace files evs = some s) :
    (s.tools = none →
      getToolsSync s = Except.error (JSError.error
        "Tools have not been loaded yet. Call loadTools() first."))
  ∧ (s.phase = DiscoveryPhase.finished →
      getToolsSync s = Except.ok (preloadToolsMap files))
  ∧ (∀ evs2 s2, s.phase = DiscoveryPhase.finished → runFrom files s evs2 = some s2 →
      getToolsSync s2 = Except.ok (preloadToolsMap files)) := by
  obtain ⟨hns, har, himp, hfin, hinvoked, hres, hobs⟩ := runTrace_inv files evs s hrun
  refine ⟨?_, ?_, ?_⟩
  · intro h
    rw [getToolsSync, h]
  · intro h
    rw [getToolsSync, (hfin h).2]
  · intro evs2 s2 h hrun2
    obtain ⟨_, h2⟩ := runFrom_finished files evs2 s s2 h (hfin h).2 hrun2
    rw [getToolsSync, h2]

/-- Witness for C5 (amended) at a completed concrete schedule. -/
theorem claim_C5_amended_witness :
    getToolsSync c5DoneState = Except.ok (preloadToolsMap c5Files) :=
  (claim_C5_amended c5Files c5DoneTrace c5DoneState (by decide)).2.1 rfl

/-- A completed schedule with two concurrent callers, both resolving. -/
def c3Trace : List Ev :=
  [Ev.callLoad 0, Ev.callLoad 1, Ev.readdirResume, Ev.importResume, Ev.importResume,
   Ev.awaitReturn 0, Ev.awaitReturn 1]

/-- The helper state reached by `c3Trace`. -/
def c3FinalState : HelperState :=
  ⟨DiscoveryPhase.finished,
   some [("a", ⟨true, "a", 0⟩), ("b", ⟨true, "b", 1⟩)], 1, [1, 0], [1, 0],
   [[("a", ⟨true, "a", 0⟩), ("b", ⟨true, "b", 1⟩)],
    [("a", ⟨true, "a", 0⟩), ("b", ⟨true, "b", 1⟩)]]⟩

/-- Witness for C3 at a concrete two-caller schedule. -/
theorem claim_C3_witness :
    c3FinalState.startedCount = 1 ∧ c3FinalState.phase = DiscoveryPhase.finished :=
  ⟨(claim_C3_single_flight c5Files c3Trace c3FinalState (by decide)).2.1 (by simp [c3FinalState]),
   (claim_C3_single_flight c5Files c3Trace c3FinalState (by decide)).2.2.1 (by simp [c3FinalState])⟩

/-- Counterexample to claim C7: with the application-name configuration value
absent, `getUserAgentHeaderText` throws — but the current-weather workflow
does not invoke it: it still issues its first network request, carrying a
hardcoded User-Agent instead of the composed identification string. -/
theorem claim_C7_counterexample :
    getUserAgentHeaderText none (some "user@example.com") =
      Except.error (JSError.error
        "Environment variables APP_NAME and APP_EMAIL must be set to generate User-Agent header.") ∧
    CurrentWeather.firstRequest none (some "user@example.com") gpOK =
      Except.ok ⟨gpOK ++ "/stations?limit=1", "weather-mcp-server (katjes733@gmx.net)"⟩ :=
  ⟨rfl, rfl⟩

/-- Claim C7 as amended: `getUserAgentHeaderText` throws when either
configuration value is absent or empty, and otherwise composes
`"<name> (<contact>)"`.  The hourly-forecast tool invokes it before its
request, so missing configuration fails before any network call and the
outbound User-Agent equals the composed string; the current-weather tool does
not invoke it and sends a hardcoded User-Agent regardless of configuration. -/
theorem claim_C7_amended (appName appEmail : Option String) (g : String) :
    ((envFalsy appName || envFalsy appEmail) = true →
      getUserAgentHeaderText appName appEmail = Except.error (JSError.error
        "Environment variables APP_NAME and APP_EMAIL must be set to generate User-Agent header.") ∧
      HourlyForecastWeather.firstRequest appName appEmail g =
        Except.error (JSError.error
          "Environment variables APP_NAME and APP_EMAIL must be set to generate User-Agent header."))
  ∧ (∀ n e, appName = some n → appEmail = some e →
      (envFalsy appName || envFalsy appEmail) = false →
      getUserAgentHeaderText appName appEmail = Except.ok (n ++ " (" ++ e ++ ")") ∧
      HourlyForecastWeather.firstRequest appName appEmail g =
        Except.ok ⟨g ++ "/forecast/hourly?units=us", n ++ " (" ++ e ++ ")"⟩)
  ∧ CurrentWeather.firstRequest appName appEmail g =
      Except.ok ⟨g ++ "/stations?limit=1", "weather-mcp-server (katjes733@gmx.net)"⟩ := by
  refine ⟨?_, ?_, rfl⟩
  · intro h
    have hua : getUserAgentHeaderText appName appEmail = Except.error (JSError.error
        "Environment variables APP_NAME and APP_EMAIL must be set to generate User-Agent header.") := by
      rw [getUserAgentHeaderText, if_pos h]
    exact ⟨hua, by rw [HourlyForecastWeather.firstRequest, hua]⟩
  · intro n e hn he hfalse
    subst hn
    subst he
    have hua : getUserAgentHeaderText (some n) (some e) =
        Except.ok (n ++ " (" ++ e ++ ")") := by
      rw [getUserAgentHeaderText, if_neg (by rw [hfalse]; intro hc; cases hc)]
      rfl
    exact ⟨hua, by rw [HourlyForecastWeather.firstRequest, hua]⟩

/-- Witness for C7 (amended) at concrete configuration values. -/
theorem claim_C7_amended_witness :
    getUserAgentHeaderText (some "app") (some "a@b.c") = Except.ok "app (a@b.c)" ∧
    HourlyForecastWeather.firstRequest (some "app") (some "a@b.c") gpOK =
      Except.ok ⟨gpOK ++ "/forecast/hourly?units=us", "app (a@b.c)"⟩ :=
  (claim_C7_amended (some "app") (some "a@b.c") gpOK).2.1 "app" "a@b.c" rfl rfl rfl

/-- A directory listing exercising every discovery rule: a `.ts` file, a
non-matching file, and a `.ts` file with a name collision, a non-constructor
export, and an instance without `getName`. -/
def c4Files : List FileEntry :=
  [⟨"A.ts", [ExportVal.ctor ⟨true, "a", 0⟩]⟩,
   ⟨"notes.txt", [ExportVal.ctor ⟨true, "x", 9⟩]⟩,
   ⟨"B.ts", [ExportVal.ctor ⟨true, "a", 1⟩, ExportVal.nonCtor, ExportVal.ctor ⟨false, "z", 2⟩]⟩]

/-- Witness for C4 at a concrete listing: name `"a"` resolves to the
last-registered colliding instance (object 1 from `B.ts`, not object 0),
the `.txt` file and the ineligible exports contribute nothing. -/
theorem claim_C4_witness :
    mapLookup (preloadToolsMap c4Files) "a" = lastWithName (eligibleInstances c4Files) "a" ∧
    (⟨true, "a", 1⟩ : Instance).name = "a" ∧
    preloadToolsMap c4Files = [("a", ⟨true, "a", 1⟩)] :=
  ⟨(claim_C4_discovery_registration c4Files).2.1 "a",
   (claim_C4_discovery_registration c4Files).2.2 "a" ⟨true, "a", 1⟩ (by decide),
   by decide⟩
